import Mathlib

/-!
Verification of the es-dumper backup/restore pipeline.

Shallow embedding of the Rust sources:
  src/utils.rs    reduce_document_size, get_elasticsearch_version helpers
  src/backup.rs   backup_data, fetch_indices, run_backup orchestration loop
  src/restore.rs  restore_data and its bulk upload loop

JSON values are modelled by the inductive type Json below (mirroring
serde_json::Value; numbers are modelled as integers, which covers every
field the program inspects numerically: document counts and byte sizes).
HTTP exchanges are modelled by explicit response values handed to the
embedded functions in the order the code would receive them.
-/

namespace EsDumper

/-- Model of serde_json::Value.  Object fields are an association list;
serde maps have unique keys, and every operation below reads or removes a
key exactly as the serde Map operations do on such lists. -/
inductive Json where
  | null : Json
  | bool (b : Bool) : Json
  | num (n : Int) : Json
  | str (s : String) : Json
  | arr (xs : List Json) : Json
  | obj (fields : List (String × Json)) : Json

/-- First binding of a key in an association list (serde Map lookup). -/
def findField (k : String) : List (String × Json) → Option Json
  | [] => none
  | (k', v) :: rest => if k' = k then some v else findField k rest

/-- Model of indexing a serde_json::Value with a string key (the Index
impl): the bound value for an object that has the key, Null otherwise. -/
def Json.getField : Json → String → Json
  | .obj fields, k =>
    match findField k fields with
    | some v => v
    | none => .null
  | _, _ => .null

/-- Model of Value::get: Some only on objects that have the key. -/
def Json.objGet : Json → String → Option Json
  | .obj fields, k => findField k fields
  | _, _ => none

/-- Model of Value::as_str. -/
def Json.asStr : Json → Option String
  | .str s => some s
  | _ => none

/-- Model of Value::as_bool. -/
def Json.asBool : Json → Option Bool
  | .bool b => some b
  | _ => none

/-- Model of Value::as_array. -/
def Json.asArr : Json → Option (List Json)
  | .arr xs => some xs
  | _ => none

/-- Model of Value::as_object. -/
def Json.asObj : Json → Option (List (String × Json))
  | .obj fields => some fields
  | _ => none

/-- Model of Value::as_u64: defined exactly on non-negative integer
numbers. -/
def Json.asNat : Json → Option Nat
  | .num n => if 0 ≤ n then some n.toNat else none
  | _ => none

/-- Model of Value::is_object. -/
def Json.isObj : Json → Bool
  | .obj _ => true
  | _ => false

/-- Top-level keys of a JSON object (empty for non-objects). -/
def Json.keys : Json → List String
  | .obj fields => fields.map Prod.fst
  | _ => []

/-- Model of str::starts_with from Rust: prefix test on the character
sequence (UTF-8 byte order and code-point order agree). -/
def starts_with (s p : String) : Bool :=
  p.toList.isPrefixOf s.toList

/-- The keys reduce_document_size keeps: everything except the three
removed at src/utils.rs lines 28-30. -/
def keepKey (k : String) : Bool :=
  k != "_index" && k != "_type" && k != "_score"

/-- src/utils.rs lines 25-33, reduce_document_size: clone the hit and, when
it is an object, remove the _index, _type and _score bindings.  All other
bindings are left in place. -/
def reduce_document_size : Json → Json
  | .obj fields => .obj (fields.filter (fun p => keepKey p.1))
  | other => other

/-- src/backup.rs lines 184-188: the scroll page size actually requested.
Halved with a floor of 1000 when the detected version starts with 8.3,
otherwise the configured size unchanged. -/
def effective_scroll_size (scrollSize : Nat) (esVersion : String) : Nat :=
  if starts_with esVersion "8.3" then (scrollSize / 2).max 1000 else scrollSize

/-- Fuel-driven worker for chunksOf; the fuel is an upper bound on the
number of chunks still to be produced. -/
def chunksGo (n : Nat) : Nat → List α → List (List α)
  | _, [] => []
  | 0, _ :: _ => []
  | fuel + 1, x :: xs => ((x :: xs).take n) :: chunksGo n fuel ((x :: xs).drop n)

/-- Model of slice::chunks from Rust (restore.rs line 180): split a list
into consecutive runs of n elements, the last one possibly shorter.  For
n = 0 the Rust call panics; the model returns junk there and every theorem
below assumes 0 < n. -/
def chunksOf (n : Nat) (l : List α) : List (List α) :=
  chunksGo n l.length l

/-- Ceiling division on naturals.  restore.rs line 173 computes the batch
count as ceil of a 64-bit float division; for any list that fits in
memory (far below 2 to the 53 documents) that float computation is exact
and equals this integer ceiling. -/
def natCeilDiv (a b : Nat) : Nat := (a + b - 1) / b

/-- An HTTP response as the program observes it: numeric status code and a
parsed JSON body. -/
structure HttpResponse where
  status : Nat
  body : Json

/-- Model of reqwest StatusCode::is_success. -/
def HttpResponse.isSuccess (r : HttpResponse) : Bool :=
  200 ≤ r.status && r.status < 300

/-- One physical line of a bulk request body (restore.rs lines 183-197).
An action line carries the target collection and document id exactly as
interpolated into the format string; a source line carries the object
serialized onto the following line. -/
inductive BulkLine where
  | action (indexName : String) (docId : String) : BulkLine
  | source (src : List (String × Json)) : BulkLine

/-- restore.rs lines 183-197: the sequence of lines of one bulk request.
Every document contributes an action line with its _id string (empty
string when _id is absent or not a string); a source line follows only
when the _source field is a JSON object. -/
def bulkBodyLines (indexName : String) (chunk : List Json) : List BulkLine :=
  chunk.flatMap (fun doc =>
    BulkLine.action indexName (((doc.getField "_id").asStr).getD "") ::
      (match (doc.getField "_source").asObj with
       | some src => [BulkLine.source src]
       | none => []))

/-- restore.rs lines 241-248: the description string logged for one item
of a bulk response, present only when the item carries an error object. -/
def itemErrorDesc (item : Json) : Option String :=
  match ((item.getField "index").getField "error").asObj with
  | none => none
  | some errFields =>
      some ((((Json.obj errFields).getField "type").asStr).getD "unknown" ++ ": " ++
        (((Json.obj errFields).getField "reason").asStr).getD "unknown reason")

/-- restore.rs lines 237-254: the warning descriptions collected from one
bulk response body: the item errors in order, capped at five. -/
def batchErrorDescs (respBody : Json) : List String :=
  match (respBody.getField "items").asArr with
  | none => []
  | some items => (items.filterMap itemErrorDesc).take 5

/-- Terminal state of restore_data in the model. -/
inductive RestoreOutcome where
  | notFound : RestoreOutcome
  | gunzipFailed : RestoreOutcome
  | parseError : RestoreOutcome
  | ok : RestoreOutcome
  | bulkHttpError (status : Nat) (respBody : Json) : RestoreOutcome
  | outOfResponses : RestoreOutcome

/-- Observable trace of one restore_data run: terminal state, the bulk
request bodies sent in order, the warning descriptions gathered per
completed batch, the number of progress increments (one per completed
batch, restore.rs line 262) and the progress length set at line 174. -/
structure RestoreTrace where
  outcome : RestoreOutcome
  requests : List (List BulkLine)
  warnings : List (List String)
  progressIncs : Nat
  progressLen : Option Nat

/-- restore.rs lines 231-260: the warning descriptions a successful bulk
response contributes; empty when the top-level errors flag is unset (or
absent, via unwrap_or false). -/
def warnOf (r : HttpResponse) : List String :=
  if ((r.body.getField "errors").asBool).getD false then batchErrorDescs r.body else []

/-- restore.rs lines 180-263: the per-batch upload loop.  Consumes one
response per sent batch; a non-success status aborts with that status and
body (lines 215-227); on success the error flag may add warning
descriptions (lines 231-260) and the batch counts as completed. -/
def restoreLoop (indexName : String) (plen : Option Nat) :
    List (List Json) → List HttpResponse →
    List (List BulkLine) → List (List String) → Nat → RestoreTrace
  | [], _, reqs, warns, incs => ⟨.ok, reqs, warns, incs, plen⟩
  | _ :: _, [], reqs, warns, incs => ⟨.outOfResponses, reqs, warns, incs, plen⟩
  | chunk :: rest, r :: rs, reqs, warns, incs =>
    let body := bulkBodyLines indexName chunk
    if r.isSuccess then
      restoreLoop indexName plen rest rs (reqs ++ [body]) (warns ++ [warnOf r]) (incs + 1)
    else
      ⟨.bulkHttpError r.status r.body, reqs ++ [body], warns, incs, plen⟩

/-- State of the on-disk backup directory as restore_data probes it. -/
structure FsState where
  plainExists : Bool
  gzExists : Bool
  gunzipOk : Bool

/-- restore.rs lines 157-269: after the data file has been located, parse
it (parse failure aborts), return early on an empty document array (lines
164-169), otherwise set the progress length to the batch count and run
the upload loop. -/
def restoreAfterFile (indexName : String) (batchSize : Nat)
    (fileDocs : Option (List Json)) (resps : List HttpResponse) : RestoreTrace :=
  match fileDocs with
  | none => ⟨.parseError, [], [], 0, none⟩
  | some docs =>
    if docs.length = 0 then ⟨.ok, [], [], 0, none⟩
    else
      let batchCount := natCeilDiv docs.length batchSize
      restoreLoop indexName (some batchCount) (chunksOf batchSize docs) resps [] [] 0

/-- restore.rs lines 130-269, restore_data: locate the data file (plain
file preferred, otherwise decompress the gz sibling, otherwise fail with
a data-file-not-found error, lines 137-155), then parse and upload.
fileDocs is the parse result of the located file, none meaning a JSON
parse failure; resps are the bulk responses in arrival order. -/
def restore_data (indexName : String) (batchSize : Nat) (fs : FsState)
    (fileDocs : Option (List Json)) (resps : List HttpResponse) : RestoreTrace :=
  if fs.plainExists then
    restoreAfterFile indexName batchSize fileDocs resps
  else if fs.gzExists then
    if fs.gunzipOk then restoreAfterFile indexName batchSize fileDocs resps
    else ⟨.gunzipFailed, [], [], 0, none⟩
  else ⟨.notFound, [], [], 0, none⟩

/-- backup.rs line 172: the document count read from the _count response
body; a missing or non-numeric count field falls back to zero via
unwrap_or. -/
def doc_count_of (countBody : Json) : Nat :=
  (((countBody.getField "count").asNat)).getD 0

/-- Terminal state of backup_data in the model. -/
inductive DataOutcome where
  | skippedEmpty : DataOutcome
  | exported (docs : List Json) : DataOutcome
  | failed (msg : String) : DataOutcome
  | outOfResponses : DataOutcome

/-- backup.rs lines 250-293: the scroll continuation loop.  acc holds the
reduced documents already written to the data file.  Each iteration
consumes one continuation response: a non-success status aborts after a
best-effort cursor release (lines 262-270); a missing scroll id or a
non-array hits field aborts; an empty page ends the loop with the file
contents complete. -/
def contLoop : List HttpResponse → List Json → DataOutcome
  | [], _ => .outOfResponses
  | r :: rs, acc =>
    if r.isSuccess then
      match ((r.body.getField "_scroll_id").asStr) with
      | none => .failed "No scroll ID returned"
      | some _ =>
        match (((r.body.getField "hits").getField "hits").asArr) with
        | none => .failed "Invalid hits format"
        | some batch =>
          if batch.isEmpty then .exported acc
          else contLoop rs (acc ++ batch.map reduce_document_size)
    else .failed "Failed to continue scroll"

/-- backup.rs lines 159-321, backup_data: read the document count (lines
169-172), return success immediately on zero without opening a scroll or
creating a file (lines 174-179); otherwise compute the effective scroll
size, open the scroll (abort on non-success, missing scroll id or bad
hits shape), create the data file, write the reduced first page, and run
the continuation loop while the first page was non-empty (the loop
condition at line 252 tests the first page, which is never reassigned). -/
def backup_data (countBody : Json) (scrollSize : Nat) (esVersion : String)
    (openResp : HttpResponse) (contResps : List HttpResponse) : DataOutcome :=
  let docCount := doc_count_of countBody
  if docCount = 0 then .skippedEmpty
  else
    let _effSize := effective_scroll_size scrollSize esVersion
    if openResp.isSuccess then
      match ((openResp.body.getField "_scroll_id").asStr) with
      | none => .failed "No scroll ID returned"
      | some _ =>
        match (((openResp.body.getField "hits").getField "hits").asArr) with
        | none => .failed "Invalid hits format"
        | some hits =>
          if hits.isEmpty then .exported (hits.map reduce_document_size)
          else contLoop contResps (hits.map reduce_document_size)
    else .failed "Failed to initialize scroll"

/-- backup.rs line 227: the data file is created exactly when control
reaches File::create, i.e. the count was non-zero, the scroll open
succeeded and a scroll id string was present. -/
def backup_data_creates_file (countBody : Json) (openResp : HttpResponse) : Bool :=
  doc_count_of countBody != 0 && openResp.isSuccess &&
    ((openResp.body.getField "_scroll_id").asStr).isSome

/-- Boolean lexicographic order on character lists: the byte order Rust
Vec of String sort uses (UTF-8 byte order equals code-point order). -/
def charListLe : List Char → List Char → Bool
  | [], _ => true
  | _ :: _, [] => false
  | a :: as, b :: bs => if a < b then true else if b < a then false else charListLe as bs

/-- Lexicographic string order, as used by Vec::sort on String. -/
def strLe (a b : String) : Bool := charListLe a.toList b.toList

/-- The slice of BackupConfig that fetch_indices consults. -/
structure DiscoverConfig where
  skip_indices : List String
  max_index_size_mb : Option Nat

/-- backup.rs line 422: the nested field extraction of the store size from
one _stats/store response body. -/
def size_in_bytes_of (statsBody : Json) (indexName : String) : Option Nat :=
  (((((statsBody.getField "indices").getField indexName).getField "total").getField
      "store").getField "size_in_bytes").asNat

/-- backup.rs lines 403-413: keep the entries whose index field is a
string that neither starts with a dot nor occurs in the skip list. -/
def name_filter (cfg : DiscoverConfig) (entries : List Json) : List String :=
  entries.filterMap (fun entry =>
    match (entry.getField "index").asStr with
    | none => none
    | some indexName =>
      if starts_with indexName "." || cfg.skip_indices.contains indexName then none
      else some indexName)

/-- backup.rs lines 415-431: when a size ceiling is configured, retain a
name only when its stats lookup chain produces a byte size whose MB value
is at most the ceiling; any failure along the chain retains the name. -/
def size_filter (cfg : DiscoverConfig) (statsResp : String → Option Json)
    (names : List String) : List String :=
  match cfg.max_index_size_mb with
  | none => names
  | some maxMb =>
    names.filter (fun indexName =>
      match (statsResp indexName).bind (fun j => size_in_bytes_of j indexName) with
      | some sizeBytes => decide (sizeBytes / (1024 * 1024) ≤ maxMb)
      | none => true)

/-- backup.rs lines 403-434: name filter, then size filter, then sort.
Vec::sort sorts by the total lexicographic byte order; for a total order
whose ties are equalities the sorted permutation is unique, so any
comparison sort gives the same list and the model uses insertion sort
(which evaluates by kernel reduction). -/
def discoveredFrom (cfg : DiscoverConfig) (statsResp : String → Option Json)
    (entries : List Json) : List String :=
  List.insertionSort (fun a b => strLe a b = true)
    (size_filter cfg statsResp (name_filter cfg entries))

/-- backup.rs lines 342-435, fetch_indices: reject a listing body carrying
an error object (lines 369-373); accept an array body directly; accept an
object body only under a version starting with 8.3, where an empty object
yields the empty listing and otherwise the indices field must be an array
(lines 375-401); then filter and sort (lines 403-434).  statsResp gives
the parsed _stats/store body per index, none standing for a failed
request or unparseable body. -/
def fetch_indices (cfg : DiscoverConfig) (listing : Json) (esVersion : String)
    (statsResp : String → Option Json) : Except String (List String) :=
  if (listing.objGet "error").isSome then .error "Elasticsearch error"
  else
    match listing.asArr with
    | some entries => .ok (discoveredFrom cfg statsResp entries)
    | none =>
      if listing.isObj && starts_with esVersion "8.3" then
        if ((listing.asObj).getD []).isEmpty then .ok []
        else
          match (listing.objGet "indices").bind Json.asArr with
          | some entries => .ok (discoveredFrom cfg statsResp entries)
          | none => .error "Expected indices array in map response"
      else .error "Unexpected response format"

/-- Outcome report of one per-collection backup task inside the
orchestration loop (backup.rs lines 101-107): abandoned tells whether the
progress bar was abandoned, errLog the error line written to the log. -/
structure TaskReport where
  name : String
  abandoned : Bool
  errLog : Option String

/-- backup.rs lines 101-107: a failing task is logged with its collection
name and abandons its bar; a successful one finishes cleanly. -/
def report_for (task : String → Except String Unit) (indexName : String) : TaskReport :=
  match task indexName with
  | .error e => ⟨indexName, true, some ("Error backing up index " ++ indexName ++ ": " ++ e)⟩
  | .ok _ => ⟨indexName, false, none⟩

/-- backup.rs lines 71-138: the orchestration loop.  The collection list
is split into chunks of the parallelism bound (par_chunks, line 72), each
chunk processes its collections strictly sequentially, every collection
increments the shared completed counter, and after the pool finishes the
function returns Ok (line 138) regardless of the per-task results. -/
def run_backup_tasks (maxPar : Nat) (collections : List String)
    (task : String → Except String Unit) :
    List TaskReport × Nat × Except String Unit :=
  let reports := ((chunksOf maxPar collections).map
    (fun chunk => chunk.map (report_for task))).flatten
  (reports, reports.length, .ok ())

/-! Lemmas about chunksOf. -/

theorem chunksGo_eq_chunksOf {n : Nat} (hn : 0 < n) :
    ∀ (fuel : Nat) (l : List α), l.length ≤ fuel → chunksGo n fuel l = chunksOf n l := by
  intro fuel
  induction fuel using Nat.strong_induction_on with
  | _ fuel ih =>
    intro l hl
    match fuel, l with
    | 0, [] => rfl
    | f + 1, [] => rfl
    | f + 1, x :: xs =>
      have hlen : (x :: xs).length = xs.length + 1 := rfl
      have hdl : ((x :: xs).drop n).length ≤ f := by
        simp only [List.length_drop, hlen] at *; omega
      have hdx : ((x :: xs).drop n).length ≤ xs.length := by
        simp only [List.length_drop, hlen]; omega
      show (x :: xs).take n :: chunksGo n f ((x :: xs).drop n) = chunksOf n (x :: xs)
      rw [ih f (Nat.lt_succ_self f) _ hdl]
      show _ = chunksGo n (xs.length + 1) (x :: xs)
      show _ = (x :: xs).take n :: chunksGo n xs.length ((x :: xs).drop n)
      rw [ih xs.length (by simp only [hlen] at hl; omega) _ hdx]

theorem chunksOf_eq_cons {n : Nat} (hn : 0 < n) {l : List α} (hl : l ≠ []) :
    chunksOf n l = l.take n :: chunksOf n (l.drop n) := by
  match l with
  | x :: xs =>
    show chunksGo n (xs.length + 1) (x :: xs) = _
    show (x :: xs).take n :: chunksGo n xs.length ((x :: xs).drop n) = _
    rw [chunksGo_eq_chunksOf hn xs.length ((x :: xs).drop n)
      (by simp only [List.length_drop, List.length_cons]; omega)]

theorem chunksOf_eq_nil_iff {n : Nat} (hn : 0 < n) {l : List α} :
    chunksOf n l = [] ↔ l = [] := by
  constructor
  · intro h
    by_contra hl
    rw [chunksOf_eq_cons hn hl] at h
    exact List.cons_ne_nil _ _ h
  · intro h; subst h; rfl

theorem chunksOf_flatten {n : Nat} (hn : 0 < n) (l : List α) :
    (chunksOf n l).flatten = l := by
  have aux : ∀ (len : Nat) (l : List α), l.length ≤ len → (chunksOf n l).flatten = l := by
    intro len
    induction len with
    | zero =>
      intro l hl
      have : l = [] := List.eq_nil_of_length_eq_zero (Nat.le_zero.mp hl)
      subst this; rfl
    | succ len ih =>
      intro l hl
      by_cases hnil : l = []
      · subst hnil; rfl
      · have hpos : 0 < l.length := List.length_pos.mpr hnil
        rw [chunksOf_eq_cons hn hnil, List.flatten_cons,
          ih (l.drop n) (by simp only [List.length_drop]; omega)]
        exact List.take_append_drop n l
  exact aux l.length l le_rfl

theorem natCeilDiv_step {n L : Nat} (hn : 0 < n) (hL : 0 < L) :
    natCeilDiv L n = natCeilDiv (L - n) n + 1 := by
  unfold natCeilDiv
  rcases Nat.le_total L n with h | h
  · have h0 : (0 + n - 1) / n = 0 := Nat.div_eq_of_lt (by omega)
    rw [Nat.sub_eq_zero_of_le h, h0]
    exact Nat.div_eq_of_lt_le (by omega) (by omega)
  · have h1 : L + n - 1 = (L - n + n - 1) + n := by omega
    rw [h1, Nat.add_div_right _ hn]

theorem chunksOf_length {n : Nat} (hn : 0 < n) (l : List α) :
    (chunksOf n l).length = natCeilDiv l.length n := by
  have aux : ∀ (len : Nat) (l : List α), l.length ≤ len →
      (chunksOf n l).length = natCeilDiv l.length n := by
    intro len
    induction len with
    | zero =>
      intro l hl
      have : l = [] := List.eq_nil_of_length_eq_zero (Nat.le_zero.mp hl)
      subst this
      show 0 = (0 + n - 1) / n
      rw [Nat.div_eq_of_lt (by omega)]
    | succ len ih =>
      intro l hl
      by_cases hnil : l = []
      · subst hnil
        show 0 = (0 + n - 1) / n
        rw [Nat.div_eq_of_lt (by omega)]
      · have hpos : 0 < l.length := List.length_pos.mpr hnil
        rw [chunksOf_eq_cons hn hnil, List.length_cons,
          ih (l.drop n) (by simp only [List.length_drop]; omega),
          List.length_drop, natCeilDiv_step hn hpos]
  exact aux l.length l le_rfl

theorem chunksOf_dropLast_length {n : Nat} (hn : 0 < n) (l : List α) :
    ∀ c ∈ (chunksOf n l).dropLast, c.length = n := by
  have aux : ∀ (len : Nat) (l : List α), l.length ≤ len →
      ∀ c ∈ (chunksOf n l).dropLast, c.length = n := by
    intro len
    induction len with
    | zero =>
      intro l hl
      have : l = [] := List.eq_nil_of_length_eq_zero (Nat.le_zero.mp hl)
      subst this; intro c hc; simp [chunksOf, chunksGo] at hc
    | succ len ih =>
      intro l hl
      by_cases hnil : l = []
      · subst hnil; intro c hc; simp [chunksOf, chunksGo] at hc
      · rw [chunksOf_eq_cons hn hnil]
        by_cases hd : l.drop n = []
        · rw [hd]
          intro c hc
          simp [chunksOf, chunksGo, List.dropLast] at hc
        · have htail : chunksOf n (l.drop n) ≠ [] := by
            rw [Ne, chunksOf_eq_nil_iff hn]; exact hd
          intro c hc
          rw [List.dropLast_cons_of_ne_nil htail] at hc
          rcases List.mem_cons.mp hc with h | h
          · subst h
            have hlen : n < l.length := by
              by_contra hle
              exact hd (List.drop_eq_nil_of_le (by omega))
            rw [List.length_take]
            omega
          · exact ih (l.drop n) (by
              simp only [List.length_drop]
              have : 0 < l.length := List.length_pos.mpr hnil
              omega) c h
  exact aux l.length l le_rfl

theorem chunksOf_getLast {n : Nat} (hn : 0 < n) (l : List α) (hl : l ≠ []) :
    ∀ c, (chunksOf n l).getLast? = some c →
      c.length = if l.length % n = 0 then n else l.length % n := by
  have aux : ∀ (len : Nat) (l : List α), l.length ≤ len → l ≠ [] →
      ∀ c, (chunksOf n l).getLast? = some c →
        c.length = if l.length % n = 0 then n else l.length % n := by
    intro len
    induction len with
    | zero =>
      intro l hl hnil
      exact absurd (List.eq_nil_of_length_eq_zero (Nat.le_zero.mp hl)) hnil
    | succ len ih =>
      intro l hl hnil c hc
      have hpos : 0 < l.length := List.length_pos.mpr hnil
      rw [chunksOf_eq_cons hn hnil] at hc
      by_cases hd : l.drop n = []
      · have hle : l.length ≤ n := by
          have := List.length_drop n l
          rw [hd] at this
          simp at this
          omega
        rw [hd] at hc
        simp [chunksOf, chunksGo] at hc
        subst hc
        rw [List.length_take]
        rcases Nat.lt_or_ge l.length n with hlt | hge
        · rw [if_neg (by rw [Nat.mod_eq_of_lt hlt]; omega), Nat.mod_eq_of_lt hlt]
          omega
        · have heq : l.length = n := le_antisymm hle hge
          rw [heq, if_pos (Nat.mod_self n)]
          omega
      · have htail : chunksOf n (l.drop n) ≠ [] := by
          rw [Ne, chunksOf_eq_nil_iff hn]; exact hd
        obtain ⟨y, t, hyt⟩ := List.exists_cons_of_ne_nil htail
        rw [hyt, List.getLast?_cons_cons, ← hyt] at hc
        have hge : n ≤ l.length := by
          by_contra hlt
          exact hd (List.drop_eq_nil_of_le (by omega))
        have := ih (l.drop n) (by simp only [List.length_drop]; omega) hd c hc
        rw [List.length_drop] at this
        rw [this, Nat.mod_eq_sub_mod hge]
  exact aux l.length l le_rfl hl

theorem chunksOf_getElem {n : Nat} (hn : 0 < n) (l : List α) :
    ∀ (i : Nat) (h : i < (chunksOf n l).length),
      (chunksOf n l)[i] = (l.drop (i * n)).take n := by
  have aux : ∀ (len : Nat) (l : List α), l.length ≤ len →
      ∀ (i : Nat) (h : i < (chunksOf n l).length),
        (chunksOf n l)[i] = (l.drop (i * n)).take n := by
    intro len
    induction len with
    | zero =>
      intro l hl i h
      have : l = [] := List.eq_nil_of_length_eq_zero (Nat.le_zero.mp hl)
      subst this
      simp [chunksOf, chunksGo] at h
    | succ len ih =>
      intro l hl i h
      by_cases hnil : l = []
      · subst hnil; simp [chunksOf, chunksGo] at h
      · have hpos : 0 < l.length := List.length_pos.mpr hnil
        have h2 : i < (l.take n :: chunksOf n (l.drop n)).length := by
          rw [← chunksOf_eq_cons hn hnil]; exact h
        rw [List.getElem_of_eq (chunksOf_eq_cons hn hnil) h]
        cases i with
        | zero => simp
        | succ i =>
          rw [List.getElem_cons_succ]
          rw [ih (l.drop n) (by simp only [List.length_drop]; omega) i
            (by simpa using h2)]
          rw [List.drop_drop]
          congr 2
          ring
  exact aux l.length l le_rfl

/-! Lemmas about the restore upload loop. -/

theorem warnOf_length_le (r : HttpResponse) : (warnOf r).length ≤ 5 := by
  unfold warnOf
  split
  · unfold batchErrorDescs
    split
    · exact Nat.zero_le 5
    · rw [List.length_take]; omega
  · exact Nat.zero_le 5

theorem restoreLoop_success_run (indexName : String) (plen : Option Nat) :
    ∀ (chunks : List (List Json)) (resps : List HttpResponse)
      (reqs : List (List BulkLine)) (warns : List (List String)) (incs : Nat),
      chunks.length ≤ resps.length →
      (∀ r ∈ resps.take chunks.length, r.isSuccess = true) →
      restoreLoop indexName plen chunks resps reqs warns incs =
        ⟨.ok, reqs ++ chunks.map (bulkBodyLines indexName),
         warns ++ (resps.take chunks.length).map warnOf,
         incs + chunks.length, plen⟩ := by
  intro chunks
  induction chunks with
  | nil => intro resps reqs warns incs _ _; simp [restoreLoop]
  | cons c cs ih =>
    intro resps reqs warns incs hlen hsucc
    match resps with
    | [] => simp at hlen
    | r :: rs =>
      have hr : r.isSuccess = true := hsucc r (by simp [List.take_cons])
      show restoreLoop indexName plen (c :: cs) (r :: rs) reqs warns incs = _
      rw [restoreLoop]
      simp only [hr, if_true]
      rw [ih rs (reqs ++ [bulkBodyLines indexName c]) (warns ++ [warnOf r]) (incs + 1)
        (by simpa using hlen)
        (by intro x hx; exact hsucc x (by simp [List.take_cons]; right; exact hx))]
      simp only [RestoreTrace.mk.injEq, List.length_cons, List.take_succ_cons,
        List.map_cons, List.append_assoc, List.singleton_append, List.cons_append,
        List.nil_append, true_and, and_true]
      omega

theorem restoreLoop_fail_run (indexName : String) (plen : Option Nat) :
    ∀ (k : Nat) (chunks : List (List Json)) (resps : List HttpResponse)
      (reqs : List (List BulkLine)) (warns : List (List String)) (incs : Nat)
      (hk1 : k < chunks.length) (hk2 : k < resps.length),
      (∀ r ∈ resps.take k, r.isSuccess = true) →
      resps[k].isSuccess = false →
      restoreLoop indexName plen chunks resps reqs warns incs =
        ⟨.bulkHttpError resps[k].status resps[k].body,
         reqs ++ (chunks.take (k + 1)).map (bulkBodyLines indexName),
         warns ++ (resps.take k).map warnOf,
         incs + k, plen⟩ := by
  intro k
  induction k with
  | zero =>
    intro chunks resps reqs warns incs hk1 hk2 _ hfail
    match chunks, resps with
    | c :: cs, r :: rs =>
      have hr : r.isSuccess = false := hfail
      show restoreLoop indexName plen (c :: cs) (r :: rs) reqs warns incs = _
      rw [restoreLoop]
      simp [hr]
  | succ k ih =>
    intro chunks resps reqs warns incs hk1 hk2 hsucc hfail
    match chunks, resps with
    | c :: cs, r :: rs =>
      have hr : r.isSuccess = true := hsucc r (by simp [List.take_cons])
      show restoreLoop indexName plen (c :: cs) (r :: rs) reqs warns incs = _
      rw [restoreLoop]
      simp only [hr, if_true]
      rw [ih cs rs (reqs ++ [bulkBodyLines indexName c]) (warns ++ [warnOf r]) (incs + 1)
        (by simpa using hk1) (by simpa using hk2)
        (by intro x hx; exact hsucc x (by simp [List.take_cons]; right; exact hx))
        (by simpa using hfail)]
      simp only [RestoreTrace.mk.injEq, List.getElem_cons_succ, List.take_succ_cons,
        List.map_cons, List.append_assoc, List.singleton_append, List.cons_append,
        List.nil_append, true_and, and_true]
      omega

theorem restoreLoop_progressLen (indexName : String) (plen : Option Nat) :
    ∀ (chunks : List (List Json)) (resps : List HttpResponse)
      (reqs : List (List BulkLine)) (warns : List (List String)) (incs : Nat),
      (restoreLoop indexName plen chunks resps reqs warns incs).progressLen = plen := by
  intro chunks
  induction chunks with
  | nil => intro resps reqs warns incs; rfl
  | cons c cs ih =>
    intro resps reqs warns incs
    match resps with
    | [] => rfl
    | r :: rs =>
      rw [restoreLoop]
      cases hr : r.isSuccess
      · simp only [hr, Bool.false_eq_true, if_false]
      · simp only [hr, if_true]; exact ih rs _ _ _

/-! Lemmas about reduce_document_size. -/

theorem findField_filter_key (k : String) (keep : String → Bool) (hk : keep k = true) :
    ∀ fields : List (String × Json),
      findField k (fields.filter (fun p => keep p.1)) = findField k fields := by
  intro fields
  induction fields with
  | nil => rfl
  | cons p rest ih =>
    rcases p with ⟨pk, pv⟩
    by_cases hpk : pk = k
    · subst hpk
      rw [List.filter_cons_of_pos (by simpa using hk)]
      simp [findField]
    · by_cases hkeep : keep pk = true
      · rw [List.filter_cons_of_pos (by simpa using hkeep)]
        simp only [findField, if_neg hpk]
        exact ih
      · rw [List.filter_cons_of_neg (by simpa using hkeep)]
        rw [ih]
        simp only [findField, if_neg hpk]

theorem keepKey_iff (k : String) :
    keepKey k = true ↔ k ≠ "_index" ∧ k ≠ "_type" ∧ k ≠ "_score" := by
  simp [keepKey, and_assoc]

theorem getField_obj (fields : List (String × Json)) (k : String) :
    (Json.obj fields).getField k =
      (match findField k fields with | some v => v | none => Json.null) := rfl

theorem reduce_getField_of_keep (doc : Json) (k : String) (hk : keepKey k = true) :
    (reduce_document_size doc).getField k = doc.getField k := by
  cases doc with
  | obj fields =>
    show (Json.obj (fields.filter (fun p => keepKey p.1))).getField k = _
    rw [getField_obj, getField_obj, findField_filter_key k keepKey hk]
  | null => rfl
  | bool b => rfl
  | num n => rfl
  | str s => rfl
  | arr xs => rfl

theorem reduce_keys_kept (doc : Json) :
    ∀ k ∈ (reduce_document_size doc).keys, keepKey k = true := by
  cases doc with
  | obj fields =>
    intro k hk
    simp only [reduce_document_size, Json.keys, List.mem_map] at hk
    obtain ⟨p, hp, hpk⟩ := hk
    have := (List.mem_filter.mp hp).2
    rw [hpk] at this
    exact this
  | null => intro k hk; simp [reduce_document_size, Json.keys] at hk
  | bool b => intro k hk; simp [reduce_document_size, Json.keys] at hk
  | num n => intro k hk; simp [reduce_document_size, Json.keys] at hk
  | str s => intro k hk; simp [reduce_document_size, Json.keys] at hk
  | arr xs => intro k hk; simp [reduce_document_size, Json.keys] at hk

/-! Round-trip machinery: extracting the id/source pairs a bulk body
carries, and a well-formed scroll response stream. -/

/-- The identifier and source pair of a document exactly as restore.rs
lines 184-192 reads them: the _id string (empty fallback) and the _source
object. -/
def pairOf (d : Json) : String × List (String × Json) :=
  (((d.getField "_id").asStr).getD "", ((d.getField "_source").asObj).getD [])

/-- The (id, source) pairs a sequence of bulk body lines carries: each
action line paired with the source line that immediately follows it; an
action line with no following source line carries no pair. -/
def pairsOfLines : List BulkLine → List (String × List (String × Json))
  | [] => []
  | BulkLine.action _ docId :: BulkLine.source src :: rest =>
      (docId, src) :: pairsOfLines rest
  | BulkLine.action _ _ :: rest => pairsOfLines rest
  | BulkLine.source _ :: rest => pairsOfLines rest

/-- All (id, source) pairs sent over the wire during one restore run, in
request order. -/
def sentPairs (t : RestoreTrace) : List (String × List (String × Json)) :=
  (t.requests.map pairsOfLines).flatten

/-- Boolean alternation test: the line list is a sequence of action and
source pairs, one pair per document. -/
def alternates : List BulkLine → Bool
  | [] => true
  | BulkLine.action _ _ :: BulkLine.source _ :: rest => alternates rest
  | _ => false

theorem bulkBodyLines_all_sources (indexName : String) :
    ∀ (chunk : List Json),
      (∀ d ∈ chunk, ((d.getField "_source").asObj).isSome = true) →
      bulkBodyLines indexName chunk =
        chunk.flatMap (fun d =>
          [BulkLine.action indexName (((d.getField "_id").asStr).getD ""),
           BulkLine.source (((d.getField "_source").asObj).getD [])]) := by
  intro chunk
  induction chunk with
  | nil => intro _; rfl
  | cons d rest ih =>
    intro h
    have hd : ((d.getField "_source").asObj).isSome = true := h d (by simp)
    obtain ⟨src, hsrc⟩ := Option.isSome_iff_exists.mp hd
    simp only [bulkBodyLines, List.flatMap_cons] at *
    rw [hsrc, ih (fun x hx => h x (by simp [hx]))]
    simp [hsrc]

theorem pairsOfLines_pairs (a : String × List (String × Json))
    (more : List BulkLine) :
    pairsOfLines (BulkLine.action i a.1 :: BulkLine.source a.2 :: more) =
      a :: pairsOfLines more := rfl

theorem pairsOfLines_bulkBody (indexName : String) :
    ∀ (chunk : List Json),
      (∀ d ∈ chunk, ((d.getField "_source").asObj).isSome = true) →
      pairsOfLines (bulkBodyLines indexName chunk) = chunk.map pairOf := by
  intro chunk
  induction chunk with
  | nil => intro _; rfl
  | cons d rest ih =>
    intro h
    have hd : ((d.getField "_source").asObj).isSome = true := h d (by simp)
    obtain ⟨src, hsrc⟩ := Option.isSome_iff_exists.mp hd
    show pairsOfLines (bulkBodyLines indexName (d :: rest)) = _
    simp only [bulkBodyLines, List.flatMap_cons]
    rw [hsrc]
    show pairsOfLines (BulkLine.action indexName (((d.getField "_id").asStr).getD "") ::
      BulkLine.source src :: bulkBodyLines indexName rest) = _
    rw [pairsOfLines_pairs (((d.getField "_id").asStr).getD "", src)]
    rw [ih (fun x hx => h x (by simp [hx]))]
    simp [pairOf, hsrc]

theorem alternates_append_pair (i : String) (docId : String)
    (src : List (String × Json)) (rest : List BulkLine) :
    alternates (BulkLine.action i docId :: BulkLine.source src :: rest) =
      alternates rest := rfl

theorem alternates_bulkBody (indexName : String) :
    ∀ (chunk : List Json),
      (∀ d ∈ chunk, ((d.getField "_source").asObj).isSome = true) →
      alternates (bulkBodyLines indexName chunk) = true := by
  intro chunk
  induction chunk with
  | nil => intro _; rfl
  | cons d rest ih =>
    intro h
    have hd : ((d.getField "_source").asObj).isSome = true := h d (by simp)
    obtain ⟨src, hsrc⟩ := Option.isSome_iff_exists.mp hd
    simp only [bulkBodyLines, List.flatMap_cons]
    rw [hsrc]
    show alternates (BulkLine.action indexName (((d.getField "_id").asStr).getD "") ::
      BulkLine.source src :: bulkBodyLines indexName rest) = true
    rw [alternates_append_pair]
    exact ih (fun x hx => h x (by simp [hx]))

/-- A well-formed scroll response: success status, a scroll id and a hits
array carrying the given page (backup.rs expects exactly these fields of
the open and continuation responses). -/
def mkScrollResp (page : List Json) : HttpResponse :=
  ⟨200, Json.obj [("_scroll_id", Json.str "cursor"),
    ("hits", Json.obj [("hits", Json.arr page)])]⟩

theorem mkScrollResp_isSuccess (page : List Json) :
    (mkScrollResp page).isSuccess = true := rfl

theorem mkScrollResp_scroll_id (page : List Json) :
    (((mkScrollResp page).body.getField "_scroll_id").asStr) = some "cursor" := rfl

theorem mkScrollResp_hits (page : List Json) :
    ((((mkScrollResp page).body.getField "hits").getField "hits").asArr) = some page := rfl

theorem contLoop_pages :
    ∀ (realPages : List (List Json)) (acc : List Json),
      (∀ p ∈ realPages, p ≠ []) →
      contLoop (realPages.map mkScrollResp ++ [mkScrollResp []]) acc =
        .exported (acc ++ realPages.flatten.map reduce_document_size) := by
  intro realPages
  induction realPages with
  | nil =>
    intro acc _
    show contLoop [mkScrollResp []] acc = _
    rw [contLoop]
    simp only [mkScrollResp_isSuccess, mkScrollResp_scroll_id, mkScrollResp_hits,
      if_true, List.isEmpty_nil, if_pos]
    simp
  | cons p ps ih =>
    intro acc h
    have hp : p ≠ [] := h p (by simp)
    show contLoop (mkScrollResp p :: (ps.map mkScrollResp ++ [mkScrollResp []])) acc = _
    rw [contLoop]
    simp only [mkScrollResp_isSuccess, mkScrollResp_scroll_id, mkScrollResp_hits, if_true]
    rw [if_neg (by simpa [List.isEmpty_iff] using hp)]
    rw [ih (acc ++ p.map reduce_document_size) (fun x hx => h x (by simp [hx]))]
    simp

theorem backup_data_pages (countBody : Json) (scrollSize : Nat) (esVersion : String)
    (firstPage : List Json) (realPages : List (List Json))
    (hcount : doc_count_of countBody ≠ 0)
    (hfp : firstPage ≠ []) (hreal : ∀ p ∈ realPages, p ≠ []) :
    backup_data countBody scrollSize esVersion (mkScrollResp firstPage)
        (realPages.map mkScrollResp ++ [mkScrollResp []]) =
      .exported ((firstPage ++ realPages.flatten).map reduce_document_size) := by
  rw [backup_data]
  simp only [if_neg hcount]
  simp only [mkScrollResp_isSuccess, mkScrollResp_scroll_id, mkScrollResp_hits, if_true]
  rw [if_neg (by simpa [List.isEmpty_iff] using hfp)]
  rw [contLoop_pages realPages (firstPage.map reduce_document_size) hreal]
  simp

/-! The lexicographic order used by the discoverer sort. -/

theorem charListLe_total : ∀ (as bs : List Char),
    (charListLe as bs || charListLe bs as) = true := by
  intro as
  induction as with
  | nil => intro bs; rfl
  | cons a as ih =>
    intro bs
    cases bs with
    | nil => rfl
    | cons b bs =>
      simp only [charListLe]
      rcases lt_trichotomy a b with h | h | h
      · simp [h, lt_asymm h]
      · subst h
        simp only [lt_irrefl, if_false, reduceIte]
        exact ih bs
      · simp [h, lt_asymm h]

theorem charListLe_trans : ∀ {as bs cs : List Char},
    charListLe as bs = true → charListLe bs cs = true → charListLe as cs = true := by
  intro as
  induction as with
  | nil => intro bs cs _ _; rfl
  | cons a as ih =>
    intro bs cs h1 h2
    match bs, cs with
    | [], _ => simp [charListLe] at h1
    | b :: bs, [] => simp [charListLe] at h2
    | b :: bs, c :: cs =>
      simp only [charListLe] at h1 h2 ⊢
      by_cases hab : a < b
      · by_cases hbc : b < c
        · rw [if_pos (lt_trans hab hbc)]
        · rw [if_neg hbc] at h2
          by_cases hcb : c < b
          · rw [if_pos hcb] at h2; exact absurd h2 (by simp)
          · have hbceq : b = c := le_antisymm (le_of_not_lt hcb) (le_of_not_lt hbc)
            subst hbceq
            rw [if_pos hab]
      · rw [if_neg hab] at h1
        by_cases hba : b < a
        · rw [if_pos hba] at h1; exact absurd h1 (by simp)
        · have habeq : a = b := le_antisymm (le_of_not_lt hba) (le_of_not_lt hab)
          subst habeq
          rw [if_neg (lt_irrefl a)] at h1
          by_cases hac : a < c
          · rw [if_pos hac]
          · rw [if_neg hac] at h2 ⊢
            by_cases hca : c < a
            · rw [if_pos hca] at h2; exact absurd h2 (by simp)
            · rw [if_neg hca] at h2 ⊢
              exact ih h1 h2

instance : IsTotal String (fun a b => strLe a b = true) :=
  ⟨fun a b => by
    have h := charListLe_total a.toList b.toList
    rcases Bool.or_eq_true_iff.mp h with h | h
    · exact Or.inl h
    · exact Or.inr h⟩

instance : IsTrans String (fun a b => strLe a b = true) :=
  ⟨fun _ _ _ h1 h2 => charListLe_trans h1 h2⟩

/-! Lemmas about fetch_indices. -/

theorem mem_name_filter (cfg : DiscoverConfig) (entries : List Json) (nm : String)
    (h : nm ∈ name_filter cfg entries) :
    starts_with nm "." = false ∧ cfg.skip_indices.contains nm = false := by
  unfold name_filter at h
  obtain ⟨entry, _, hfn⟩ := List.mem_filterMap.mp h
  revert hfn
  cases hstr : (entry.getField "index").asStr with
  | none => intro hfn; simp at hfn
  | some s =>
    intro hfn
    simp only at hfn
    by_cases hcond : (starts_with s "." || cfg.skip_indices.contains s) = true
    · rw [if_pos (by simpa using hcond)] at hfn; simp at hfn
    · rw [if_neg (by simpa using hcond)] at hfn
      obtain rfl : s = nm := by simpa using hfn
      simpa [Bool.or_eq_true_iff, not_or] using hcond

theorem size_filter_subset (cfg : DiscoverConfig) (statsResp : String → Option Json)
    (names : List String) (nm : String) (h : nm ∈ size_filter cfg statsResp names) :
    nm ∈ names := by
  unfold size_filter at h
  cases hmax : cfg.max_index_size_mb with
  | none => rw [hmax] at h; exact h
  | some maxMb => rw [hmax] at h; exact (List.mem_filter.mp h).1

theorem size_filter_bound (cfg : DiscoverConfig) (statsResp : String → Option Json)
    (names : List String) (nm : String) (maxMb : Nat)
    (hmax : cfg.max_index_size_mb = some maxMb)
    (h : nm ∈ size_filter cfg statsResp names) (sb : Nat)
    (hsb : (statsResp nm).bind (fun j => size_in_bytes_of j nm) = some sb) :
    sb / (1024 * 1024) ≤ maxMb := by
  unfold size_filter at h
  rw [hmax] at h
  have hp := (List.mem_filter.mp h).2
  rw [hsb] at hp
  simpa using hp

theorem size_filter_fail_open (cfg : DiscoverConfig) (statsResp : String → Option Json)
    (names : List String) (nm : String) (h : nm ∈ names)
    (hnone : (statsResp nm).bind (fun j => size_in_bytes_of j nm) = none) :
    nm ∈ size_filter cfg statsResp names := by
  unfold size_filter
  cases hmax : cfg.max_index_size_mb with
  | none => exact h
  | some maxMb =>
    refine List.mem_filter.mpr ⟨h, ?_⟩
    rw [hnone]

theorem fetch_indices_ok_shape (cfg : DiscoverConfig) (listing : Json)
    (esVersion : String) (statsResp : String → Option Json) (result : List String)
    (hok : fetch_indices cfg listing esVersion statsResp = .ok result) :
    result = [] ∨ ∃ entries, result = discoveredFrom cfg statsResp entries := by
  unfold fetch_indices at hok
  by_cases herr : (listing.objGet "error").isSome = true
  · rw [if_pos herr] at hok; simp at hok
  · rw [if_neg herr] at hok
    revert hok
    cases harr : listing.asArr with
    | some entries =>
      intro hok
      simp only [Except.ok.injEq] at hok
      exact Or.inr ⟨entries, hok.symm⟩
    | none =>
      intro hok
      simp only at hok
      by_cases hobj : (listing.isObj && starts_with esVersion "8.3") = true
      · rw [if_pos hobj] at hok
        by_cases hemp : ((listing.asObj).getD []).isEmpty = true
        · rw [if_pos hemp] at hok
          simp only [Except.ok.injEq] at hok
          exact Or.inl hok.symm
        · rw [if_neg hemp] at hok
          revert hok
          cases hind : (listing.objGet "indices").bind Json.asArr with
          | some entries =>
            intro hok
            simp only [Except.ok.injEq] at hok
            exact Or.inr ⟨entries, hok.symm⟩
          | none => intro hok; simp at hok
      · rw [if_neg hobj] at hok; simp at hok

theorem mem_discoveredFrom (cfg : DiscoverConfig) (statsResp : String → Option Json)
    (entries : List Json) (nm : String) :
    nm ∈ discoveredFrom cfg statsResp entries ↔
      nm ∈ size_filter cfg statsResp (name_filter cfg entries) :=
  (List.perm_insertionSort (fun a b => strLe a b = true)
    (size_filter cfg statsResp (name_filter cfg entries))).mem_iff

/-- The two listing shapes fetch_indices accepts (backup.rs lines
375-401): a plain array of entries, or under a version starting with 8.3
an object whose indices field is the entry array.  Either way the
accepted run filters and sorts exactly these entries. -/
theorem fetch_indices_ok_entries (cfg : DiscoverConfig) (listing : Json)
    (esVersion : String) (statsResp : String → Option Json) (result : List String)
    (entries : List Json)
    (hok : fetch_indices cfg listing esVersion statsResp = .ok result)
    (hent : listing.asArr = some entries ∨
      (listing.isObj = true ∧ starts_with esVersion "8.3" = true ∧
        (listing.objGet "indices").bind Json.asArr = some entries)) :
    result = discoveredFrom cfg statsResp entries := by
  rcases hent with harr | ⟨hobj, hver, hind⟩
  · have hlist : listing = Json.arr entries := by
      cases listing <;> simp [Json.asArr] at harr
      rw [harr]
    subst hlist
    have hred : fetch_indices cfg (Json.arr entries) esVersion statsResp =
        .ok (discoveredFrom cfg statsResp entries) := rfl
    rw [hred] at hok
    simpa using hok.symm
  · obtain ⟨fields, hfields⟩ : ∃ fields, listing = Json.obj fields := by
      cases listing <;> simp [Json.isObj] at hobj
      exact ⟨_, rfl⟩
    subst hfields
    unfold fetch_indices at hok
    by_cases herr : ((Json.obj fields).objGet "error").isSome = true
    · rw [if_pos herr] at hok; simp at hok
    · rw [if_neg herr] at hok
      simp only [Json.asArr] at hok
      rw [if_pos (by simp [Json.isObj, hver])] at hok
      by_cases hemp : (((Json.obj fields).asObj).getD []).isEmpty = true
      · exfalso
        have hnil : fields = [] := by
          simpa [Json.asObj, List.isEmpty_iff] using hemp
        subst hnil
        simp [Json.objGet, findField] at hind
      · rw [if_neg hemp] at hok
        have hind2 : (((Json.obj fields).objGet "indices").bind fun a =>
            match a with
            | Json.arr xs => some xs
            | _ => none) = some entries := hind
        rw [hind2] at hok
        simpa using hok.symm

/-! The claims. -/

/-- C2: for every configured page size S and detected version string V the
effective page size equals S when V does not start with 8.3 and equals
max(S/2, 1000) (integer halving) when it does; configured 10000 yields
5000 and configured 1500 yields 1000 under an 8.3 version. -/
theorem C2_effective_page_size :
    (∀ (S : Nat) (V : String),
      effective_scroll_size S V =
        if starts_with V "8.3" then Nat.max (S / 2) 1000 else S) ∧
    effective_scroll_size 10000 "8.3.3" = 5000 ∧
    effective_scroll_size 1500 "8.3.3" = 1000 := by
  refine ⟨fun S V => rfl, by decide, by decide⟩

/-- A hit as the search API can return it: id, source, the three metadata
fields, and one further bookkeeping field (sort), as returned for the
sorted scroll query the exporter issues. -/
def c7Hit : Json :=
  Json.obj [("_index", Json.str "col"), ("_type", Json.str "_doc"),
    ("_id", Json.str "doc1"), ("_score", Json.num 1),
    ("_source", Json.obj [("field", Json.str "value")]),
    ("sort", Json.arr [Json.num 0])]

/-- C7 as stated is false: the reduction only removes _index, _type and
_score, so a hit with any further top-level field (here: sort) keeps it,
contradicting that only the identifier and source content remain. -/
theorem C7_counterexample :
    ¬ (∀ k ∈ (reduce_document_size c7Hit).keys, k = "_id" ∨ k = "_source") := by
  intro h
  have := h "sort" (by decide)
  simp at this

/-- C7 amended: the reduction removes exactly the _index, _type and _score
top-level fields; every other top-level field, in particular the
identifier and the source content, is left unchanged, and no removed key
survives. -/
theorem C7_reduced_document (doc : Json) (k : String)
    (h1 : k ≠ "_index") (h2 : k ≠ "_type") (h3 : k ≠ "_score") :
    (reduce_document_size doc).getField k = doc.getField k ∧
    (reduce_document_size doc).getField "_id" = doc.getField "_id" ∧
    (reduce_document_size doc).getField "_source" = doc.getField "_source" ∧
    ∀ k2 ∈ (reduce_document_size doc).keys,
      k2 ≠ "_index" ∧ k2 ≠ "_type" ∧ k2 ≠ "_score" := by
  refine ⟨?_, ?_, ?_, ?_⟩
  · exact reduce_getField_of_keep doc k ((keepKey_iff k).mpr ⟨h1, h2, h3⟩)
  · exact reduce_getField_of_keep doc "_id" (by decide)
  · exact reduce_getField_of_keep doc "_source" (by decide)
  · intro k2 hk2
    exact (keepKey_iff k2).mp (reduce_keys_kept doc k2 hk2)

/-- C7 witness: the amended statement evaluated on the concrete hit. -/
theorem C7_witness :
    (reduce_document_size c7Hit).getField "sort" = c7Hit.getField "sort" ∧
    (reduce_document_size c7Hit).getField "_id" = c7Hit.getField "_id" ∧
    (reduce_document_size c7Hit).getField "_source" = c7Hit.getField "_source" ∧
    ∀ k2 ∈ (reduce_document_size c7Hit).keys,
      k2 ≠ "_index" ∧ k2 ≠ "_type" ∧ k2 ≠ "_score" :=
  C7_reduced_document c7Hit "sort" (by decide) (by decide) (by decide)

/-- C9: a count response body without a numeric count field is read as
zero documents: backup_data returns success without opening a scroll or
creating a data file, indistinguishably from an explicit zero count. -/
theorem C9_malformed_count (countBody : Json)
    (h : (countBody.getField "count").asNat = none)
    (scrollSize : Nat) (esVersion : String) (openResp : HttpResponse)
    (contResps : List HttpResponse) :
    backup_data countBody scrollSize esVersion openResp contResps = .skippedEmpty ∧
    backup_data_creates_file countBody openResp = false ∧
    backup_data countBody scrollSize esVersion openResp contResps =
      backup_data (Json.obj [("count", Json.num 0)]) scrollSize esVersion
        openResp contResps := by
  have hz : doc_count_of countBody = 0 := by
    unfold doc_count_of
    rw [h]
    rfl
  refine ⟨?_, ?_, ?_⟩
  · unfold backup_data
    rw [hz]
    rfl
  · unfold backup_data_creates_file
    rw [hz]
    rfl
  · unfold backup_data
    rw [hz]
    rfl

/-- C9 witness: a count body whose count field is a string. -/
theorem C9_witness :
    backup_data (Json.obj [("count", Json.str "x")]) 10000 "8.3.3"
        ⟨200, Json.null⟩ [] = .skippedEmpty ∧
    backup_data_creates_file (Json.obj [("count", Json.str "x")])
        ⟨200, Json.null⟩ = false ∧
    backup_data (Json.obj [("count", Json.str "x")]) 10000 "8.3.3"
        ⟨200, Json.null⟩ [] =
      backup_data (Json.obj [("count", Json.num 0)]) 10000 "8.3.3"
        ⟨200, Json.null⟩ [] :=
  C9_malformed_count (Json.obj [("count", Json.str "x")]) rfl 10000 "8.3.3"
    ⟨200, Json.null⟩ []

/-- C10: a zero document count makes backup_data succeed without creating
any data file, and a restore that finds neither the plain nor the
compressed data file fails with the data-file-not-found error: the
zero-document case does not round-trip. -/
theorem C10_zero_count_no_roundtrip (countBody : Json)
    (h : doc_count_of countBody = 0)
    (scrollSize : Nat) (esVersion : String) (openResp : HttpResponse)
    (contResps : List HttpResponse) (indexName : String) (batchSize : Nat)
    (fs : FsState) (hplain : fs.plainExists = false) (hgz : fs.gzExists = false)
    (fileDocs : Option (List Json)) (resps : List HttpResponse) :
    backup_data countBody scrollSize esVersion openResp contResps = .skippedEmpty ∧
    backup_data_creates_file countBody openResp = false ∧
    (restore_data indexName batchSize fs fileDocs resps).outcome = .notFound := by
  refine ⟨?_, ?_, ?_⟩
  · unfold backup_data; rw [h]; rfl
  · unfold backup_data_creates_file; rw [h]; rfl
  · unfold restore_data
    rw [hplain, hgz]
    rfl

/-- C10 witness: zero count on the backup side, empty directory on the
restore side. -/
theorem C10_witness :
    backup_data (Json.obj [("count", Json.num 0)]) 10000 "7.10.2"
        ⟨200, Json.null⟩ [] = .skippedEmpty ∧
    backup_data_creates_file (Json.obj [("count", Json.num 0)])
        ⟨200, Json.null⟩ = false ∧
    (restore_data "col" 5000 ⟨false, false, true⟩ none []).outcome = .notFound :=
  C10_zero_count_no_roundtrip (Json.obj [("count", Json.num 0)]) rfl 10000 "7.10.2"
    ⟨200, Json.null⟩ [] "col" 5000 ⟨false, false, true⟩ rfl rfl none []

/-- C3: for a non-empty parsed document list of length N and batch size B,
the importer partitions it in array order into ceil(N/B) batches, the
first ones of size B and the last of size N mod B (or B when B divides
N); batch i is exactly the documents at positions i*B..i*B+B-1; and the
progress length is set to the batch count. -/
theorem C3_import_batching (docs : List Json) (B : Nat) (hB : 0 < B)
    (hN : docs ≠ []) (indexName : String) (fs : FsState)
    (hfs : fs.plainExists = true) (resps : List HttpResponse) :
    (chunksOf B docs).length = natCeilDiv docs.length B ∧
    (chunksOf B docs).flatten = docs ∧
    (∀ c ∈ (chunksOf B docs).dropLast, c.length = B) ∧
    (∀ c, (chunksOf B docs).getLast? = some c →
      c.length = if docs.length % B = 0 then B else docs.length % B) ∧
    (∀ (i : Nat) (h : i < (chunksOf B docs).length),
      (chunksOf B docs)[i] = (docs.drop (i * B)).take B) ∧
    (restore_data indexName B fs (some docs) resps).progressLen =
      some (natCeilDiv docs.length B) := by
  refine ⟨chunksOf_length hB docs, chunksOf_flatten hB docs,
    chunksOf_dropLast_length hB docs, chunksOf_getLast hB docs hN,
    chunksOf_getElem hB docs, ?_⟩
  obtain ⟨d, ds, rfl⟩ := List.exists_cons_of_ne_nil hN
  unfold restore_data
  rw [hfs]
  simp only [if_true]
  show (restoreAfterFile indexName B (some (d :: ds)) resps).progressLen = _
  show (if (d :: ds).length = 0 then
      (⟨.parseError, [], [], 0, none⟩ : RestoreTrace).progressLen
    else (restoreLoop indexName (some (natCeilDiv (d :: ds).length B))
      (chunksOf B (d :: ds)) resps [] [] 0).progressLen) = _
  rw [if_neg (by simp)]
  exact restoreLoop_progressLen indexName _ _ _ _ _ _

/-- C3 witness: five documents with batch size two give batches of sizes
2, 2, 1 at the expected positions, and the progress bound 3. -/
theorem C3_witness :
    (chunksOf 2 [Json.num 1, Json.num 2, Json.num 3, Json.num 4, Json.num 5]).length =
      natCeilDiv 5 2 ∧
    (chunksOf 2 [Json.num 1, Json.num 2, Json.num 3, Json.num 4, Json.num 5]).flatten =
      [Json.num 1, Json.num 2, Json.num 3, Json.num 4, Json.num 5] ∧
    (∀ c ∈ (chunksOf 2 [Json.num 1, Json.num 2, Json.num 3, Json.num 4,
      Json.num 5]).dropLast, c.length = 2) ∧
    (∀ c, (chunksOf 2 [Json.num 1, Json.num 2, Json.num 3, Json.num 4,
      Json.num 5]).getLast? = some c →
      c.length = if (5 : Nat) % 2 = 0 then 2 else 5 % 2) ∧
    (∀ (i : Nat) (h : i < (chunksOf 2 [Json.num 1, Json.num 2, Json.num 3,
      Json.num 4, Json.num 5]).length),
      (chunksOf 2 [Json.num 1, Json.num 2, Json.num 3, Json.num 4, Json.num 5])[i] =
        (([Json.num 1, Json.num 2, Json.num 3, Json.num 4,
          Json.num 5]).drop (i * 2)).take 2) ∧
    (restore_data "col" 2 ⟨true, false, true⟩
      (some [Json.num 1, Json.num 2, Json.num 3, Json.num 4, Json.num 5])
      []).progressLen = some (natCeilDiv 5 2) :=
  C3_import_batching [Json.num 1, Json.num 2, Json.num 3, Json.num 4, Json.num 5]
    2 (by decide) (List.cons_ne_nil _ _) "col" ⟨true, false, true⟩ rfl []

/-- Helper: for a located plain data file and a non-empty document list,
restore_data is the upload loop over the B-chunks. -/
theorem restore_data_plain (indexName : String) (B : Nat) (fs : FsState)
    (hfs : fs.plainExists = true) (d : Json) (ds : List Json)
    (resps : List HttpResponse) :
    restore_data indexName B fs (some (d :: ds)) resps =
      restoreLoop indexName (some (natCeilDiv (d :: ds).length B))
        (chunksOf B (d :: ds)) resps [] [] 0 := by
  unfold restore_data
  rw [hfs]
  simp only [if_true]
  show restoreAfterFile indexName B (some (d :: ds)) resps = _
  show (if (d :: ds).length = 0 then
      (⟨.parseError, [], [], 0, none⟩ : RestoreTrace)
    else restoreLoop indexName (some (natCeilDiv (d :: ds).length B))
      (chunksOf B (d :: ds)) resps [] [] 0) = _
  rw [if_neg (by simp)]

/-- C4: a non-success bulk response aborts the import of the collection
with that status and body after k completed batches; when every response
succeeds the import completes, advancing progress once per batch, each
batch contributing at most the first five item error descriptions as
warnings (exactly the descriptions warnOf reads off the response body). -/
theorem C4_bulk_batch_error_policy (indexName : String) (B : Nat) (hB : 0 < B)
    (fs : FsState) (hfs : fs.plainExists = true)
    (docs : List Json) (hN : docs ≠ []) (resps : List HttpResponse) :
    (∀ (k : Nat) (hk1 : k < (chunksOf B docs).length) (hk2 : k < resps.length),
      (∀ r ∈ resps.take k, r.isSuccess = true) → resps[k].isSuccess = false →
      (restore_data indexName B fs (some docs) resps).outcome =
          .bulkHttpError resps[k].status resps[k].body ∧
      (restore_data indexName B fs (some docs) resps).progressIncs = k) ∧
    ((chunksOf B docs).length ≤ resps.length →
      (∀ r ∈ resps.take (chunksOf B docs).length, r.isSuccess = true) →
      (restore_data indexName B fs (some docs) resps).outcome = .ok ∧
      (restore_data indexName B fs (some docs) resps).progressIncs =
        (chunksOf B docs).length ∧
      (restore_data indexName B fs (some docs) resps).warnings =
        (resps.take (chunksOf B docs).length).map warnOf ∧
      ∀ w ∈ (restore_data indexName B fs (some docs) resps).warnings,
        w.length ≤ 5) := by
  obtain ⟨d, ds, rfl⟩ := List.exists_cons_of_ne_nil hN
  rw [restore_data_plain indexName B fs hfs d ds resps]
  constructor
  · intro k hk1 hk2 hsucc hfail
    rw [restoreLoop_fail_run indexName _ k (chunksOf B (d :: ds)) resps [] [] 0
      hk1 hk2 hsucc hfail]
    exact ⟨rfl, Nat.zero_add k⟩
  · intro hlen hsucc
    rw [restoreLoop_success_run indexName _ (chunksOf B (d :: ds)) resps [] [] 0
      hlen hsucc]
    refine ⟨rfl, Nat.zero_add _, by simp, ?_⟩
    intro w hw
    simp only [List.nil_append, List.mem_map] at hw
    obtain ⟨r, _, hrw⟩ := hw
    rw [← hrw]
    exact warnOf_length_le r

/-- A successful bulk response whose body reports the errors flag and
seven item errors; only the first five may be logged. -/
def c4ErrItem (i : Nat) : Json :=
  Json.obj [("index", Json.obj [("error", Json.obj
    [("type", Json.str "mapper_parsing_exception"),
     ("reason", Json.str (Nat.repr i))])])]

/-- Body of a successful bulk response with the errors flag set. -/
def c4ErrBody : Json :=
  Json.obj [("errors", Json.bool true),
    ("items", Json.arr [c4ErrItem 0, c4ErrItem 1, c4ErrItem 2, c4ErrItem 3,
      c4ErrItem 4, c4ErrItem 5, c4ErrItem 6])]

/-- C4 witness: one collection, two batches.  First run: second response
is a 500, the import aborts with status and body after one completed
batch.  Second run: both responses succeed, one with the errors flag and
seven item errors; the import completes with two progress units and five
logged warnings. -/
theorem C4_witness :
    ((restore_data "col" 2 ⟨true, false, true⟩
        (some [Json.num 1, Json.num 2, Json.num 3])
        [⟨200, Json.obj []⟩, ⟨500, Json.str "boom"⟩]).outcome =
      .bulkHttpError 500 (Json.str "boom") ∧
     (restore_data "col" 2 ⟨true, false, true⟩
        (some [Json.num 1, Json.num 2, Json.num 3])
        [⟨200, Json.obj []⟩, ⟨500, Json.str "boom"⟩]).progressIncs = 1) ∧
    ((restore_data "col" 2 ⟨true, false, true⟩
        (some [Json.num 1, Json.num 2, Json.num 3])
        [⟨200, c4ErrBody⟩, ⟨200, Json.obj []⟩]).outcome = .ok ∧
     (restore_data "col" 2 ⟨true, false, true⟩
        (some [Json.num 1, Json.num 2, Json.num 3])
        [⟨200, c4ErrBody⟩, ⟨200, Json.obj []⟩]).progressIncs = 2 ∧
     (restore_data "col" 2 ⟨true, false, true⟩
        (some [Json.num 1, Json.num 2, Json.num 3])
        [⟨200, c4ErrBody⟩, ⟨200, Json.obj []⟩]).warnings =
       ([⟨200, c4ErrBody⟩, ⟨200, Json.obj []⟩].take
         (chunksOf 2 [Json.num 1, Json.num 2, Json.num 3]).length).map warnOf ∧
     ∀ w ∈ (restore_data "col" 2 ⟨true, false, true⟩
        (some [Json.num 1, Json.num 2, Json.num 3])
        [⟨200, c4ErrBody⟩, ⟨200, Json.obj []⟩]).warnings, w.length ≤ 5) := by
  constructor
  · exact (C4_bulk_batch_error_policy "col" 2 (by decide) ⟨true, false, true⟩ rfl
      [Json.num 1, Json.num 2, Json.num 3] (List.cons_ne_nil _ _)
      [⟨200, Json.obj []⟩, ⟨500, Json.str "boom"⟩]).1 1 (by decide) (by decide)
      (by decide) (by decide)
  · exact (C4_bulk_batch_error_policy "col" 2 (by decide) ⟨true, false, true⟩ rfl
      [Json.num 1, Json.num 2, Json.num 3] (List.cons_ne_nil _ _)
      [⟨200, c4ErrBody⟩, ⟨200, Json.obj []⟩]).2 (by decide) (by decide)

/-- A parsed document with no object-valued source. -/
def c8Doc : Json := Json.obj [("_id", Json.str "a")]

/-- C8 as stated is false: a document whose _source is not a JSON object
contributes only its action line (restore.rs line 192 guards the source
line), so the body of a batch containing such a document is not a strict
alternation of action and source lines, one pair per document. -/
theorem C8_counterexample :
    ¬ (alternates (bulkBodyLines "col" [c8Doc]) = true ∧
       (bulkBodyLines "col" [c8Doc]).length = 2 * [c8Doc].length) := by
  intro h
  exact absurd h.1 (by decide)

/-- C8 amended: for every batch in which every document carries an
object-valued _source, the request body is, per document in order, an
action line naming the collection and the _id followed by the source
object line: a strict alternation with one pair per document. -/
theorem C8_bulk_body_shape (indexName : String) (chunk : List Json)
    (h : ∀ d ∈ chunk, ((d.getField "_source").asObj).isSome = true) :
    bulkBodyLines indexName chunk =
      chunk.flatMap (fun d =>
        [BulkLine.action indexName (((d.getField "_id").asStr).getD ""),
         BulkLine.source (((d.getField "_source").asObj).getD [])]) ∧
    alternates (bulkBodyLines indexName chunk) = true ∧
    (bulkBodyLines indexName chunk).length = 2 * chunk.length ∧
    pairsOfLines (bulkBodyLines indexName chunk) = chunk.map pairOf := by
  refine ⟨bulkBodyLines_all_sources indexName chunk h,
    alternates_bulkBody indexName chunk h, ?_,
    pairsOfLines_bulkBody indexName chunk h⟩
  rw [bulkBodyLines_all_sources indexName chunk h]
  induction chunk with
  | nil => rfl
  | cons d rest ih =>
    simp only [List.flatMap_cons, List.length_append, List.length_cons]
    rw [ih (fun x hx => h x (by simp [hx]))]
    simp
    ring

/-- C8 witness: a two-document batch with object sources. -/
theorem C8_witness :
    bulkBodyLines "col"
        [Json.obj [("_id", Json.str "a"), ("_source", Json.obj [("f", Json.num 1)])],
         Json.obj [("_id", Json.str "b"), ("_source", Json.obj [])]] =
      [BulkLine.action "col" "a", BulkLine.source [("f", Json.num 1)],
       BulkLine.action "col" "b", BulkLine.source []] ∧
    alternates (bulkBodyLines "col"
        [Json.obj [("_id", Json.str "a"), ("_source", Json.obj [("f", Json.num 1)])],
         Json.obj [("_id", Json.str "b"), ("_source", Json.obj [])]]) = true ∧
    (bulkBodyLines "col"
        [Json.obj [("_id", Json.str "a"), ("_source", Json.obj [("f", Json.num 1)])],
         Json.obj [("_id", Json.str "b"), ("_source", Json.obj [])]]).length = 2 * 2 ∧
    pairsOfLines (bulkBodyLines "col"
        [Json.obj [("_id", Json.str "a"), ("_source", Json.obj [("f", Json.num 1)])],
         Json.obj [("_id", Json.str "b"), ("_source", Json.obj [])]]) =
      [("a", [("f", Json.num 1)]), ("b", [])] := by
  have h := C8_bulk_body_shape "col"
    [Json.obj [("_id", Json.str "a"), ("_source", Json.obj [("f", Json.num 1)])],
     Json.obj [("_id", Json.str "b"), ("_source", Json.obj [])]] (by decide)
  exact ⟨h.1.trans rfl, h.2.1, h.2.2.1, (h.2.2.2).trans rfl⟩

/-- C5: every name the discoverer returns neither starts with a dot nor
sits in the skip list; under a configured size ceiling no returned name
has a reported MB size above the ceiling; a name whose size lookup chain
fails is retained whenever it passed the name filter (fail-open); and the
returned list is sorted in the lexicographic order. -/
theorem C5_discoverer (cfg : DiscoverConfig) (listing : Json) (esVersion : String)
    (statsResp : String → Option Json) (result : List String)
    (hok : fetch_indices cfg listing esVersion statsResp = .ok result) :
    (∀ nm ∈ result, starts_with nm "." = false ∧
      cfg.skip_indices.contains nm = false) ∧
    (∀ maxMb, cfg.max_index_size_mb = some maxMb →
      ∀ nm ∈ result, ∀ sb,
        (statsResp nm).bind (fun j => size_in_bytes_of j nm) = some sb →
        sb / (1024 * 1024) ≤ maxMb) ∧
    (∀ entries, (listing.asArr = some entries ∨
        (listing.isObj = true ∧ starts_with esVersion "8.3" = true ∧
          (listing.objGet "indices").bind Json.asArr = some entries)) →
      ∀ nm ∈ name_filter cfg entries,
        (statsResp nm).bind (fun j => size_in_bytes_of j nm) = none →
        nm ∈ result) ∧
    List.Sorted (fun a b => strLe a b = true) result := by
  have hshape := fetch_indices_ok_shape cfg listing esVersion statsResp result hok
  refine ⟨?_, ?_, ?_, ?_⟩
  · intro nm hnm
    rcases hshape with h | ⟨entries, h⟩
    · subst h; simp at hnm
    · subst h
      exact mem_name_filter cfg entries nm
        (size_filter_subset cfg statsResp _ nm
          ((mem_discoveredFrom cfg statsResp entries nm).mp hnm))
  · intro maxMb hmax nm hnm sb hsb
    rcases hshape with h | ⟨entries, h⟩
    · subst h; simp at hnm
    · subst h
      exact size_filter_bound cfg statsResp _ nm maxMb hmax
        ((mem_discoveredFrom cfg statsResp entries nm).mp hnm) sb hsb
  · intro entries hent nm hnm hnone
    have hres := fetch_indices_ok_entries cfg listing esVersion statsResp result
      entries hok hent
    subst hres
    exact (mem_discoveredFrom cfg statsResp entries nm).mpr
      (size_filter_fail_open cfg statsResp _ nm hnm hnone)
  · rcases hshape with h | ⟨entries, h⟩
    · subst h; exact List.sorted_nil
    · subst h
      exact List.sorted_insertionSort (fun a b => strLe a b = true) _

/-- A listing with a system collection, a skip-listed one, one above the
size ceiling, one below it, and one whose stats lookup fails. -/
def c5Listing : Json := Json.arr
  [Json.obj [("index", Json.str ".kibana")],
   Json.obj [("index", Json.str "zeta")],
   Json.obj [("index", Json.str "skipme")],
   Json.obj [("index", Json.str "big")],
   Json.obj [("index", Json.str "alpha")]]

/-- Stats bodies: big reports 20 MB, zeta reports 1 MB, everything else
fails its lookup. -/
def c5Stats (nm : String) : Option Json :=
  if nm = "big" then some (Json.obj [("indices", Json.obj [("big",
    Json.obj [("total", Json.obj [("store", Json.obj
      [("size_in_bytes", Json.num 20971520)])])])])])
  else if nm = "zeta" then some (Json.obj [("indices", Json.obj [("zeta",
    Json.obj [("total", Json.obj [("store", Json.obj
      [("size_in_bytes", Json.num 1048576)])])])])])
  else none

/-- The same listing in the object shape fetch_indices accepts under a
version starting with 8.3: an object whose indices field is the array. -/
def c5ListingObj : Json := Json.obj [("indices", c5Listing)]

/-- C5 witness, exercising the ES-8.3 object-shaped listing path: with
skip list [skipme] and a 10 MB ceiling the discovered set is
[alpha, zeta]: the dot and skip names and the oversized name are gone,
the failed-lookup name alpha is retained (fail-open, via the object-path
side of the disjunction), and the order is sorted. -/
theorem C5_witness :
    (∀ nm ∈ ["alpha", "zeta"], starts_with nm "." = false ∧
      (["skipme"] : List String).contains nm = false) ∧
    (∀ maxMb, (some 10 : Option Nat) = some maxMb →
      ∀ nm ∈ ["alpha", "zeta"], ∀ sb,
        (c5Stats nm).bind (fun j => size_in_bytes_of j nm) = some sb →
        sb / (1024 * 1024) ≤ maxMb) ∧
    (∀ entries, (c5ListingObj.asArr = some entries ∨
        (c5ListingObj.isObj = true ∧ starts_with "8.3.3" "8.3" = true ∧
          (c5ListingObj.objGet "indices").bind Json.asArr = some entries)) →
      ∀ nm ∈ name_filter ⟨["skipme"], some 10⟩ entries,
        (c5Stats nm).bind (fun j => size_in_bytes_of j nm) = none →
        nm ∈ ["alpha", "zeta"]) ∧
    List.Sorted (fun a b => strLe a b = true) ["alpha", "zeta"] :=
  C5_discoverer ⟨["skipme"], some 10⟩ c5ListingObj "8.3.3" c5Stats
    ["alpha", "zeta"] rfl

/-- C6: the orchestration loop processes every collection (in list order
across the chunks), reports a failing collection as abandoned with an
error log line naming it, reports a succeeding one as finished, counts
every collection as completed, and returns Ok regardless of how many
collections failed. -/
theorem C6_orchestrator_isolation (maxPar : Nat) (hpar : 0 < maxPar)
    (collections : List String) (task : String → Except String Unit) :
    (run_backup_tasks maxPar collections task).1 =
      collections.map (report_for task) ∧
    (run_backup_tasks maxPar collections task).1.map TaskReport.name =
      collections ∧
    (∀ r ∈ (run_backup_tasks maxPar collections task).1,
      (∀ e, task r.name = .error e →
        r.abandoned = true ∧
        r.errLog = some ("Error backing up index " ++ r.name ++ ": " ++ e)) ∧
      (task r.name = .ok () → r.abandoned = false ∧ r.errLog = none)) ∧
    (run_backup_tasks maxPar collections task).2.1 = collections.length ∧
    (run_backup_tasks maxPar collections task).2.2 = .ok () := by
  have hrep : (run_backup_tasks maxPar collections task).1 =
      collections.map (report_for task) := by
    show ((chunksOf maxPar collections).map
      (fun chunk => chunk.map (report_for task))).flatten = _
    rw [← List.map_flatten, chunksOf_flatten hpar]
  refine ⟨hrep, ?_, ?_, ?_, rfl⟩
  · rw [hrep, List.map_map]
    have : TaskReport.name ∘ report_for task = id := by
      funext i
      simp only [Function.comp_apply, report_for, id_eq]
      cases task i <;> rfl
    rw [this, List.map_id]
  · intro r hr
    rw [hrep] at hr
    obtain ⟨i, _, hri⟩ := List.mem_map.mp hr
    have hname : r.name = i := by
      rw [← hri]
      simp only [report_for]
      cases task i <;> rfl
    constructor
    · intro e he
      rw [hname] at he
      rw [← hri]
      simp only [report_for, he]
      exact ⟨trivial, trivial⟩
    · intro he
      rw [hname] at he
      rw [← hri]
      simp only [report_for, he]
      exact ⟨trivial, trivial⟩
  · show ((run_backup_tasks maxPar collections task).1).length = _
    rw [hrep, List.length_map]

/-- A task set in which two of three collections fail. -/
def c6Task (nm : String) : Except String Unit :=
  if nm = "good" then .ok () else .error "boom"

/-- C6 witness: three collections, two failing, parallelism two: all three
reported, failures abandoned and logged by name, total counted, Ok. -/
theorem C6_witness :
    (run_backup_tasks 2 ["bad1", "good", "bad2"] c6Task).1 =
      ["bad1", "good", "bad2"].map (report_for c6Task) ∧
    (run_backup_tasks 2 ["bad1", "good", "bad2"] c6Task).1.map TaskReport.name =
      ["bad1", "good", "bad2"] ∧
    (∀ r ∈ (run_backup_tasks 2 ["bad1", "good", "bad2"] c6Task).1,
      (∀ e, c6Task r.name = .error e →
        r.abandoned = true ∧
        r.errLog = some ("Error backing up index " ++ r.name ++ ": " ++ e)) ∧
      (c6Task r.name = .ok () → r.abandoned = false ∧ r.errLog = none)) ∧
    (run_backup_tasks 2 ["bad1", "good", "bad2"] c6Task).2.1 = 3 ∧
    (run_backup_tasks 2 ["bad1", "good", "bad2"] c6Task).2.2 = .ok () :=
  C6_orchestrator_isolation 2 (by decide) ["bad1", "good", "bad2"] c6Task

/-- C1: round trip.  Export a collection through the scroll pipeline (a
non-empty first page, further non-empty pages, then the terminating empty
page), then import the resulting document array with any batch size and
all-successful bulk responses: the (identifier, source) pairs sent in the
bulk requests are exactly the (identifier, source) pairs of the exported
documents (here even in the same order, so in particular as sets), and
those pairs are the pairs of the original hits, since the reduction
strips no identifier and no source. -/
theorem C1_round_trip
    (countBody : Json) (scrollSize : Nat) (esVersion : String)
    (firstPage : List Json) (realPages : List (List Json))
    (hcount : doc_count_of countBody ≠ 0)
    (hfp : firstPage ≠ []) (hreal : ∀ p ∈ realPages, p ≠ [])
    (hdocs : ∀ h ∈ firstPage ++ realPages.flatten,
      ((h.getField "_id").asStr).isSome = true ∧
      ((h.getField "_source").asObj).isSome = true)
    (exportedDocs : List Json)
    (hexp : backup_data countBody scrollSize esVersion (mkScrollResp firstPage)
        (realPages.map mkScrollResp ++ [mkScrollResp []]) = .exported exportedDocs)
    (indexName : String) (B : Nat) (hB : 0 < B)
    (fs : FsState) (hplain : fs.plainExists = true)
    (resps : List HttpResponse)
    (hlen : (chunksOf B exportedDocs).length ≤ resps.length)
    (hsucc : ∀ r ∈ resps.take (chunksOf B exportedDocs).length,
      r.isSuccess = true) :
    sentPairs (restore_data indexName B fs (some exportedDocs) resps) =
      exportedDocs.map pairOf ∧
    exportedDocs.map pairOf = (firstPage ++ realPages.flatten).map pairOf ∧
    ∀ p, p ∈ sentPairs (restore_data indexName B fs (some exportedDocs) resps) ↔
      p ∈ exportedDocs.map pairOf := by
  have hpages := backup_data_pages countBody scrollSize esVersion firstPage
    realPages hcount hfp hreal
  rw [hpages] at hexp
  have hE : exportedDocs =
      (firstPage ++ realPages.flatten).map reduce_document_size := by
    injection hexp with h
    exact h.symm
  have hDsrc : ∀ d ∈ exportedDocs,
      ((d.getField "_source").asObj).isSome = true := by
    intro d hd
    rw [hE] at hd
    obtain ⟨h0, hh0, rfl⟩ := List.mem_map.mp hd
    rw [reduce_getField_of_keep h0 "_source" (by decide)]
    exact (hdocs h0 hh0).2
  have hEne : exportedDocs ≠ [] := by
    rw [hE]
    intro hcontra
    rw [List.map_eq_nil_iff, List.append_eq_nil] at hcontra
    exact hfp hcontra.1
  obtain ⟨d, ds, hcons⟩ := List.exists_cons_of_ne_nil hEne
  have hrd : restore_data indexName B fs (some exportedDocs) resps =
      restoreLoop indexName (some (natCeilDiv exportedDocs.length B))
        (chunksOf B exportedDocs) resps [] [] 0 := by
    rw [hcons]
    exact restore_data_plain indexName B fs hplain d ds resps
  rw [hrd, restoreLoop_success_run indexName _ _ resps [] [] 0 hlen hsucc]
  have hchunkmem : ∀ c ∈ chunksOf B exportedDocs, ∀ x ∈ c, x ∈ exportedDocs := by
    intro c hc x hx
    rw [← chunksOf_flatten hB exportedDocs]
    exact List.mem_flatten.mpr ⟨c, hc, hx⟩
  have hsent : sentPairs
      (⟨.ok, [] ++ (chunksOf B exportedDocs).map (bulkBodyLines indexName),
        [] ++ (resps.take (chunksOf B exportedDocs).length).map warnOf,
        0 + (chunksOf B exportedDocs).length,
        some (natCeilDiv exportedDocs.length B)⟩ : RestoreTrace) =
      exportedDocs.map pairOf := by
    show ((([] ++ (chunksOf B exportedDocs).map
      (bulkBodyLines indexName)).map pairsOfLines)).flatten = _
    rw [List.nil_append, List.map_map]
    have hcong : (chunksOf B exportedDocs).map (pairsOfLines ∘ bulkBodyLines indexName) =
        (chunksOf B exportedDocs).map (List.map pairOf) := by
      apply List.map_congr_left
      intro c hc
      exact pairsOfLines_bulkBody indexName c
        (fun x hx => hDsrc x (hchunkmem c hc x hx))
    rw [hcong, ← List.map_flatten, chunksOf_flatten hB]
  refine ⟨hsent, ?_, fun p => by rw [hsent]⟩
  rw [hE, List.map_map]
  apply List.map_congr_left
  intro h0 _
  show pairOf (reduce_document_size h0) = pairOf h0
  unfold pairOf
  rw [reduce_getField_of_keep h0 "_id" (by decide),
    reduce_getField_of_keep h0 "_source" (by decide)]

/-- Concrete hits for the round-trip witness. -/
def c1d1 : Json := Json.obj [("_index", Json.str "col"), ("_id", Json.str "a"),
  ("_score", Json.num 1), ("_source", Json.obj [("f", Json.num 1)])]

/-- Second concrete hit. -/
def c1d2 : Json := Json.obj [("_id", Json.str "b"), ("_source", Json.obj [])]

/-- Third concrete hit, arriving on the second page. -/
def c1d3 : Json := Json.obj [("_id", Json.str "c"),
  ("_source", Json.obj [("g", Json.str "x")])]

/-- The export file the pipeline produces for those hits. -/
def c1Exported : List Json :=
  ([c1d1, c1d2] ++ [[c1d3]].flatten).map reduce_document_size

/-- C1 witness: three documents over two pages, imported in batches of
two with successful responses. -/
theorem C1_witness :
    sentPairs (restore_data "col" 2 ⟨true, false, true⟩ (some c1Exported)
        [⟨200, Json.obj []⟩, ⟨200, Json.obj []⟩]) = c1Exported.map pairOf ∧
    c1Exported.map pairOf = ([c1d1, c1d2] ++ [[c1d3]].flatten).map pairOf ∧
    ∀ p, p ∈ sentPairs (restore_data "col" 2 ⟨true, false, true⟩
        (some c1Exported) [⟨200, Json.obj []⟩, ⟨200, Json.obj []⟩]) ↔
      p ∈ c1Exported.map pairOf :=
  C1_round_trip (Json.obj [("count", Json.num 3)]) 10000 "8.3.3"
    [c1d1, c1d2] [[c1d3]] (by decide) (List.cons_ne_nil _ _)
    (by
      intro p hp
      simp only [List.mem_singleton] at hp
      subst hp
      exact List.cons_ne_nil _ _)
    (by decide) c1Exported rfl "col" 2 (by decide) ⟨true, false, true⟩ rfl
    [⟨200, Json.obj []⟩, ⟨200, Json.obj []⟩] (by decide) (by decide)

end EsDumper
